import Mathlib

/-!
Shallow embedding of `src/dotfiles/symlink_manager.py` (the Dotfile Link
Applier).  Paths are lists of components; the filesystem is a partial map
from paths to nodes (regular file with contents, directory, or symlink).
`Path.exists()` follows symlinks (one level, which is exact here since the
program only ever creates links to plain files or directories), while
`Path.is_symlink()` does not.  `Path.with_suffix` is modelled with
pathlib's stem/suffix semantics.
-/

namespace SymlinkManager

abbrev Path := List String

inductive Node where
  | file (contents : String)
  | dir
  | symlink (referent : Path)
deriving DecidableEq

abbrev Fs := Path → Option Node

def setP (fs : Fs) (p : Path) (v : Node) : Fs :=
  fun q => if q = p then some v else fs q

def eraseP (fs : Fs) (p : Path) : Fs :=
  fun q => if q = p then none else fs q

/-- `os.rename`-style move: the node at `p` ends up at `q` (overwriting any
node at `q`); renaming a path onto itself is a no-op, as on POSIX. -/
def renameP (fs : Fs) (p q : Path) : Fs :=
  fun r => if r = q then fs p else if r = p then none else fs r

/-- `Path.exists()`: follows a symlink to its referent. -/
def existsFollow (fs : Fs) (p : Path) : Bool :=
  match fs p with
  | none => false
  | some (Node.symlink q) => (fs q).isSome
  | some _ => true

/-- `Path.is_symlink()`: true exactly when the entry is a symlink
(dangling or not). -/
def isSymlink (fs : Fs) (p : Path) : Bool :=
  match fs p with
  | some (Node.symlink _) => true
  | _ => false

/-- The strict ancestors of `t` below the root, shortest first:
for `a/b/c` this is `[a, a/b]`. -/
def properPrefixes (t : Path) : List Path :=
  ((List.range t.length).drop 1).map (fun k => t.take k)

/-- `target.parent.mkdir(parents=True, exist_ok=True)`: create every
missing ancestor of `t` as a directory. -/
def mkdirParents (fs : Fs) (t : Path) : Fs :=
  (properPrefixes t).foldl (fun f p => if (f p).isSome then f else setP f p Node.dir) fs

/-- Helper for pathlib suffix splitting: on a reversed name, split at the
first dot, returning (chars before the dot, chars after the dot), both
still reversed. -/
def findDotSplit : List Char → Option (List Char × List Char)
  | [] => none
  | c :: rest =>
    if c = '.' then some ([], rest)
    else
      match findDotSplit rest with
      | some pr => some (c :: pr.1, pr.2)
      | none => none

/-- pathlib stem: the final component without its suffix.  The suffix is
the part from the last dot, provided that dot is neither the first nor the
last character of the name; otherwise the suffix is empty and the stem is
the whole name. -/
def stemOf (name : List Char) : List Char :=
  match findDotSplit name.reverse with
  | some pr => if pr.1.isEmpty || pr.2.isEmpty then name else pr.2.reverse
  | none => name

/-- `PurePath.with_suffix` on the final component's name: replace the old
suffix (or append when there is none). -/
def nameWithSuffix (name suffix : String) : String :=
  String.mk (stemOf name.data ++ suffix.data)

/-- `Path.with_suffix`: rewrite the last component of the path. -/
def pathWithSuffix : Path → String → Path
  | [], _ => []
  | [n], suf => [nameWithSuffix n suf]
  | c :: c2 :: rest, suf => c :: pathWithSuffix (c2 :: rest) suf

inductive LogEvent where
  | warnMissingSource (source : Path)
  | infoBackup (target backup : Path)
  | infoCreated (target source : Path)
  | errorSymlink (target : Path)
deriving DecidableEq

/-- `DotfilesManager._create_symlink`: skip with a warning when the source
does not exist; create missing parent directories; unlink an existing
target symlink or back up an existing regular target to
`target.with_suffix(".backup")`; then attempt the symlink, which fails
(caught and logged) exactly when the target path is still occupied. -/
def createSymlink (fs : Fs) (source target : Path) : Fs × List LogEvent :=
  if existsFollow fs source then
    let fs1 := mkdirParents fs target
    let step2 : Fs × List LogEvent :=
      if existsFollow fs1 target then
        if isSymlink fs1 target then (eraseP fs1 target, [])
        else
          (renameP fs1 target (pathWithSuffix target ".backup"),
           [LogEvent.infoBackup target (pathWithSuffix target ".backup")])
      else (fs1, [])
    if (step2.1 target).isSome then
      (step2.1, step2.2 ++ [LogEvent.errorSymlink target])
    else
      (setP step2.1 target (Node.symlink source), step2.2 ++ [LogEvent.infoCreated target source])
  else (fs, [LogEvent.warnMissingSource source])

/-- A mapping table: ordered list of (logical name, source path, target
path), mirroring the insertion-ordered Python dict of
`_load_config_mapping`. -/
abbrev Mapping := List (String × Path × Path)

/-- `name in self.config_mapping` / `self.config_mapping[name]`: first
entry with the given name. -/
def lookupEntry : Mapping → String → Option (Path × Path)
  | [], _ => none
  | e :: rest, name => if e.1 = name then some e.2 else lookupEntry rest name

def targetOf (m : Mapping) (n : String) : Option Path :=
  (lookupEntry m n).map (fun e => e.2)

/-- Insertion-ordered grouping step, as the Python dict
`target_to_dotfiles` does it: append to an existing group for this target
or open a new one at the end. -/
def addToGroup : List (Path × List String) → Path → String → List (Path × List String)
  | [], t, n => [(t, [n])]
  | g :: rest, t, n =>
    if g.1 = t then (g.1, g.2 ++ [n]) :: rest else g :: addToGroup rest t n

/-- The `target_to_dotfiles` dict built by `_check_duplicate_targets`:
names are grouped by resolved target, names missing from the mapping are
skipped. -/
def groupTargets (m : Mapping) (names : List String) : List (Path × List String) :=
  names.foldl
    (fun gs n =>
      match lookupEntry m n with
      | some e => addToGroup gs e.2 n
      | none => gs)
    []

def renderPath (p : Path) : String := String.intercalate "/" p

def dupMessage (dups : List (Path × List String)) : String :=
  dups.foldl
    (fun acc g =>
      acc ++ "  " ++ renderPath g.1 ++ " is targeted by: " ++ String.intercalate ", " g.2 ++ "\n")
    "Found duplicate target paths:\n"

/-- `DotfilesManager._check_duplicate_targets`: raise `ValueError` exactly
when some target is shared by more than one of the requested names. -/
def checkDuplicateTargets (m : Mapping) (names : List String) : Except String Unit :=
  let dups := (groupTargets m names).filter (fun g => decide (1 < g.2.length))
  if dups.isEmpty then Except.ok () else Except.error (dupMessage dups)

/-- The for-loop shared by `symlink_all` and `symlink_specific`: process
the selected names left to right, threading the filesystem and
accumulating the log. -/
def applyEntries (m : Mapping) : List String → Fs → Fs × List LogEvent
  | [], fs => (fs, [])
  | n :: ns, fs =>
    match lookupEntry m n with
    | some e =>
      let p := createSymlink fs e.1 e.2
      let q := applyEntries m ns p.1
      (q.1, p.2 ++ q.2)
    | none => applyEntries m ns fs

/-- The list comprehension of `symlink_all`: every mapping key, in
declaration order, minus the exclusion set. -/
def allSelection (m : Mapping) (exclude : List String) : List String :=
  (m.map (fun e => e.1)).filter (fun n => !(exclude.contains n))

/-- The list comprehension of `symlink_specific`: the requested names, in
request order, filtered to known names not in the exclusion set. -/
def specificSelection (m : Mapping) (dotfiles exclude : List String) : List String :=
  dotfiles.filter (fun n => (lookupEntry m n).isSome && !(exclude.contains n))

/-- Validation followed by the apply loop, as both public operations do
it: the duplicate-target check runs before any filesystem mutation. -/
def processSelection (m : Mapping) (names : List String) (fs : Fs) :
    Except String (Fs × List LogEvent) :=
  match checkDuplicateTargets m names with
  | Except.error e => Except.error e
  | Except.ok _ => Except.ok (applyEntries m names fs)

/-- `DotfilesManager.symlink_all`. -/
def symlinkAll (m : Mapping) (exclude : List String) (fs : Fs) :
    Except String (Fs × List LogEvent) :=
  processSelection m (allSelection m exclude) fs

/-- `DotfilesManager.symlink_specific`. -/
def symlinkSpecific (m : Mapping) (dotfiles exclude : List String) (fs : Fs) :
    Except String (Fs × List LogEvent) :=
  processSelection m (specificSelection m dotfiles exclude) fs

/-- `platform.system().lower()`: character-wise lowering of the detected
platform name. -/
def lowerStr (s : String) : String := String.mk (s.data.map Char.toLower)

/-- `get_default_config_dir`: lower-cased platform name dispatch, plus a
flag recording whether the unsupported-platform warning was logged. -/
def getDefaultConfigDir (system : String) (home : Path) : Path × Bool :=
  let s := lowerStr system
  if s = "darwin" then (home ++ ["Library", "Application Support"], false)
  else if s = "linux" then (home ++ [".config"], false)
  else (home ++ [".config"], true)

/-- `Path(os.getenv("CONFIG_DIR", str(get_default_config_dir())))` in
`DotfilesManager.__init__`. -/
def resolveConfigDir (env : Option Path) (system : String) (home : Path) : Path :=
  match env with
  | some p => p
  | none => (getDefaultConfigDir system home).1

/-- `DotfilesManager._load_config_mapping`: the default mapping table, in
declaration order. -/
def defaultMapping (dotfilesDir homeDir configDir : Path) : Mapping :=
  [ ("bashrc", dotfilesDir ++ ["bashrc"], homeDir ++ [".bashrc"]),
    ("bash_aliases", dotfilesDir ++ ["bash_aliases"], homeDir ++ [".bash_aliases"]),
    ("bash_env", dotfilesDir ++ ["bash_env"], homeDir ++ [".bash_env"]),
    ("npmrc", dotfilesDir ++ ["npmrc"], homeDir ++ [".npmrc"]),
    ("git", dotfilesDir ++ ["git", "config"], homeDir ++ [".git", "config"]),
    ("tmux", dotfilesDir ++ ["tmux", "tmux.conf"], homeDir ++ ["tmux", "tmux.conf"]),
    ("nvim-plugins", dotfilesDir ++ ["nvim-plugins"], configDir ++ ["nvim"]),
    ("nvim-no-plugins", dotfilesDir ++ ["nvim-no-plugins"], configDir ++ ["nvim"]),
    ("vscode", dotfilesDir ++ ["vscode", "settings.json"],
      configDir ++ ["Code", "User", "settings.json"]),
    ("cursor", dotfilesDir ++ ["cursor", "settings.json"],
      configDir ++ ["Cursor", "User", "settings.json"]) ]

/-- `main` after argument parsing: `--all` wins, then `--limit`, else the
help text and `sys.exit(1)`; a `ValueError` from validation is caught and
answered with `sys.exit(1)`.  Result: final filesystem, log, exit code. -/
def mainRun (m : Mapping) (allFlag : Bool) (limit : Option (List String))
    (exclude : List String) (fs : Fs) : Fs × List LogEvent × Nat :=
  if allFlag then
    match symlinkAll m exclude fs with
    | Except.ok r => (r.1, r.2, 0)
    | Except.error _ => (fs, [], 1)
  else
    match limit with
    | some ds =>
      match symlinkSpecific m ds exclude fs with
      | Except.ok r => (r.1, r.2, 0)
      | Except.error _ => (fs, [], 1)
    | none => (fs, [], 1)

/-- The list of names an invocation iterates over (empty when neither
`--all` nor `--limit` is given). -/
def selectionOf (m : Mapping) (allFlag : Bool) (limit : Option (List String))
    (exclude : List String) : List String :=
  if allFlag then allSelection m exclude
  else
    match limit with
    | some ds => specificSelection m ds exclude
    | none => []

/-! ### Lemmas about the duplicate-target check -/

/-- The group of names recorded for a target (empty when absent). -/
def lookupGroup : List (Path × List String) → Path → List String
  | [], _ => []
  | g :: rest, t => if g.1 = t then g.2 else lookupGroup rest t

theorem lookupGroup_addToGroup (gs : List (Path × List String)) (t : Path) (n : String)
    (t' : Path) :
    lookupGroup (addToGroup gs t n) t' =
      if t' = t then lookupGroup gs t' ++ [n] else lookupGroup gs t' := by
  induction gs with
  | nil =>
    by_cases h : t' = t
    · subst h; simp [addToGroup, lookupGroup]
    · have h2 : ¬(t = t') := fun hh => h hh.symm
      simp [addToGroup, lookupGroup, h, h2]
  | cons g rest ih =>
    by_cases hg : g.1 = t
    · by_cases h : t' = t
      · subst h; simp [addToGroup, lookupGroup, hg]
      · have h2 : ¬(t = t') := fun hh => h hh.symm
        have hgt : ¬(g.1 = t') := fun hh => h (hh.symm.trans hg)
        simp [addToGroup, lookupGroup, hg, h, h2, hgt]
    · by_cases hgt : g.1 = t'
      · have h : ¬(t' = t) := fun hh => hg (hgt.trans hh)
        simp [addToGroup, lookupGroup, hg, hgt, h]
      · simp [addToGroup, lookupGroup, hg, hgt, ih]

/-- One fold step of `groupTargets`. -/
def groupStep (m : Mapping) (gs : List (Path × List String)) (n : String) :
    List (Path × List String) :=
  match lookupEntry m n with
  | some e => addToGroup gs e.2 n
  | none => gs

theorem groupTargets_eq_foldl (m : Mapping) (names : List String) :
    groupTargets m names = names.foldl (groupStep m) [] := rfl

theorem mem_lookupGroup_foldl_mono (m : Mapping) (names : List String) (n : String) (t : Path) :
    ∀ gs : List (Path × List String), n ∈ lookupGroup gs t →
      n ∈ lookupGroup (names.foldl (groupStep m) gs) t := by
  induction names with
  | nil => intro gs h; simpa using h
  | cons n0 rest ih =>
    intro gs h
    simp only [List.foldl_cons]
    apply ih
    unfold groupStep
    cases hn : lookupEntry m n0 with
    | none => simpa using h
    | some e =>
      rw [lookupGroup_addToGroup]
      by_cases ht : t = e.2
      · rw [if_pos ht]; exact List.mem_append_left _ h
      · rw [if_neg ht]; exact h

theorem mem_lookupGroup_of_mem (m : Mapping) (names : List String) (n : String) (t : Path)
    (hmem : n ∈ names) (htgt : targetOf m n = some t) :
    n ∈ lookupGroup (groupTargets m names) t := by
  rw [groupTargets_eq_foldl]
  have main : ∀ gs : List (Path × List String),
      n ∈ lookupGroup (names.foldl (groupStep m) gs) t := by
    induction names with
    | nil => simp at hmem
    | cons n0 rest ih =>
      intro gs
      rcases List.mem_cons.mp hmem with heq | hrest
      · subst heq
        simp only [List.foldl_cons]
        obtain ⟨e, he, he2⟩ : ∃ e, lookupEntry m n = some e ∧ e.2 = t := by
          cases hl : lookupEntry m n with
          | none => simp [targetOf, hl] at htgt
          | some e =>
            refine ⟨e, rfl, ?_⟩
            simpa [targetOf, hl] using htgt
        apply mem_lookupGroup_foldl_mono
        unfold groupStep
        rw [he]
        show n ∈ lookupGroup (addToGroup gs e.2 n) t
        rw [lookupGroup_addToGroup, he2]
        simp
      · simp only [List.foldl_cons]
        exact ih hrest _
  exact main []

theorem one_lt_length_of_two_mem {α : Type} {l : List α} {a b : α}
    (ha : a ∈ l) (hb : b ∈ l) (hne : a ≠ b) : 1 < l.length := by
  cases l with
  | nil => simp at ha
  | cons x rest =>
    cases rest with
    | nil =>
      simp only [List.mem_singleton] at ha hb
      exact absurd (ha.trans hb.symm) hne
    | cons y rest2 => simp [List.length]

theorem dups_ne_nil_of_big_group (gs : List (Path × List String)) (t : Path)
    (h : 1 < (lookupGroup gs t).length) :
    (gs.filter (fun g => decide (1 < g.2.length))).isEmpty = false := by
  induction gs with
  | nil => simp [lookupGroup] at h
  | cons g rest ih =>
    by_cases hg : g.1 = t
    · have hlen : 1 < g.2.length := by simpa [lookupGroup, hg] using h
      simp [List.filter_cons, hlen]
    · have h2 : 1 < (lookupGroup rest t).length := by simpa [lookupGroup, hg] using h
      have := ih h2
      by_cases hp : 1 < g.2.length <;> simp_all [List.filter_cons]

/-- Core collision lemma: two distinct selected names sharing a target
make `_check_duplicate_targets` raise. -/
theorem checkDup_error_of_collision (m : Mapping) (names : List String)
    (n1 n2 : String) (t : Path) (h1 : n1 ∈ names) (h2 : n2 ∈ names) (hne : n1 ≠ n2)
    (ht1 : targetOf m n1 = some t) (ht2 : targetOf m n2 = some t) :
    ∃ e, checkDuplicateTargets m names = Except.error e := by
  have hm1 := mem_lookupGroup_of_mem m names n1 t h1 ht1
  have hm2 := mem_lookupGroup_of_mem m names n2 t h2 ht2
  have hlen := one_lt_length_of_two_mem hm1 hm2 hne
  have hdup := dups_ne_nil_of_big_group (groupTargets m names) t hlen
  refine ⟨dupMessage ((groupTargets m names).filter (fun g => decide (1 < g.2.length))), ?_⟩
  simp [checkDuplicateTargets, hdup]

theorem processSelection_error (m : Mapping) (names : List String) (fs : Fs) (e : String)
    (h : checkDuplicateTargets m names = Except.error e) :
    processSelection m names fs = Except.error e := by
  simp [processSelection, h]

/-! ### Lemmas about the single-entry symlink routine -/

theorem existsFollow_isSome (fs : Fs) (p : Path) (h : existsFollow fs p = true) :
    (fs p).isSome = true := by
  unfold existsFollow at h
  cases hp : fs p with
  | none => rw [hp] at h; simp at h
  | some v => simp [hp]

theorem mkdirParents_apply (fs : Fs) (t q : Path) (h : q ∉ properPrefixes t) :
    mkdirParents fs t q = fs q := by
  unfold mkdirParents
  have main : ∀ (ps : List Path) (f : Fs), q ∉ ps → f q = fs q →
      (ps.foldl (fun f p => if (f p).isSome then f else setP f p Node.dir) f) q = fs q := by
    intro ps
    induction ps with
    | nil => intro f _ hf; simpa using hf
    | cons p rest ih =>
      intro f hq hf
      have hqp : q ≠ p := fun hh => hq (by simp [hh])
      have hqrest : q ∉ rest := fun hh => hq (by simp [hh])
      simp only [List.foldl_cons]
      apply ih _ hqrest
      by_cases hp : (f p).isSome <;> simp [hp, setP, hqp, hf]
  exact main (properPrefixes t) fs h rfl

theorem length_lt_of_mem_properPrefixes (p t : Path) (h : p ∈ properPrefixes t) :
    p.length < t.length := by
  unfold properPrefixes at h
  obtain ⟨k, hk, hp⟩ := List.mem_map.mp h
  have hk2 : k < t.length := List.mem_range.mp (List.mem_of_mem_drop hk)
  subst hp
  simpa [List.length_take] using hk2

theorem mkdirParents_self (fs : Fs) (t : Path) : mkdirParents fs t t = fs t := by
  apply mkdirParents_apply
  intro h
  exact absurd (length_lt_of_mem_properPrefixes t t h) (lt_irrefl _)

theorem mkdirParents_eq_of_parents (fs : Fs) (t : Path)
    (h : ∀ p ∈ properPrefixes t, (fs p).isSome = true) : mkdirParents fs t = fs := by
  unfold mkdirParents
  have main : ∀ ps : List Path, (∀ p ∈ ps, (fs p).isSome = true) →
      ps.foldl (fun f p => if (f p).isSome then f else setP f p Node.dir) fs = fs := by
    intro ps
    induction ps with
    | nil => intro _; rfl
    | cons p rest ih =>
      intro hps
      have hp : (fs p).isSome = true := hps p (by simp)
      simp only [List.foldl_cons, hp, if_true]
      exact ih (fun p2 h2 => hps p2 (by simp [h2]))
  exact main (properPrefixes t) h

theorem pathWithSuffix_length (t : Path) (suf : String) (h : t ≠ []) :
    (pathWithSuffix t suf).length = t.length := by
  induction t with
  | nil => exact absurd rfl h
  | cons c rest ih =>
    cases rest with
    | nil => simp [pathWithSuffix]
    | cons c2 rest2 => simp [pathWithSuffix, ih]

/-- Re-linking: when the source exists, the target is already a symlink to
that source and the target's parent directories exist, `_create_symlink`
unlinks the target and recreates the identical symlink, leaving the
filesystem unchanged. -/
theorem createSymlink_relink (fs : Fs) (s t : Path)
    (hsrc : existsFollow fs s = true) (ht : fs t = some (Node.symlink s))
    (hp : ∀ p ∈ properPrefixes t, (fs p).isSome = true) :
    createSymlink fs s t = (fs, [LogEvent.infoCreated t s]) := by
  have hs : (fs s).isSome = true := existsFollow_isSome fs s hsrc
  have hft : existsFollow fs t = true := by simp [existsFollow, ht, hs]
  have hit : isSymlink fs t = true := by simp [isSymlink, ht]
  have hfs1 : mkdirParents fs t = fs := mkdirParents_eq_of_parents fs t hp
  have herase : eraseP fs t t = none := by simp [eraseP]
  have hset : setP (eraseP fs t) t (Node.symlink s) = fs := by
    funext q
    by_cases hq : q = t
    · subst hq; simp [setP, eraseP, ht]
    · simp [setP, eraseP, hq]
  simp only [createSymlink, hsrc, if_true, hfs1, hft, hit, herase, Option.isSome_none,
    Bool.false_eq_true, if_false, hset, List.nil_append]

/-- Missing source: `_create_symlink` logs a warning and does nothing. -/
theorem createSymlink_missing_source (fs : Fs) (s t : Path)
    (hsrc : existsFollow fs s = false) :
    createSymlink fs s t = (fs, [LogEvent.warnMissingSource s]) := by
  simp [createSymlink, hsrc]

/-- Dangling target symlink: the target is neither unlinked nor backed up
(`target.exists()` is false), symlink creation then fails on the occupied
path, and the failure is only logged. -/
theorem createSymlink_dangling (fs : Fs) (s t q : Path)
    (hsrc : existsFollow fs s = true) (ht : fs t = some (Node.symlink q))
    (hq : fs q = none) (hp : ∀ p ∈ properPrefixes t, (fs p).isSome = true) :
    createSymlink fs s t = (fs, [LogEvent.errorSymlink t]) := by
  have hfs1 : mkdirParents fs t = fs := mkdirParents_eq_of_parents fs t hp
  have hft : existsFollow fs t = false := by simp [existsFollow, ht, hq]
  have htsome : (fs t).isSome = true := by simp [ht]
  simp only [createSymlink, hsrc, if_true, hfs1, hft, Bool.false_eq_true, if_false, htsome,
    List.nil_append]

/-- Regular-file target: the file is moved to `target.with_suffix(".backup")`
with its contents intact, and the symlink is created at the target. -/
theorem createSymlink_backup (fs : Fs) (s t : Path) (contents : String)
    (hsrc : existsFollow fs s = true) (ht : fs t = some (Node.file contents))
    (hb : pathWithSuffix t ".backup" ≠ t) :
    (createSymlink fs s t).1 (pathWithSuffix t ".backup") = some (Node.file contents) ∧
      (createSymlink fs s t).1 t = some (Node.symlink s) ∧
      (createSymlink fs s t).2 =
        [LogEvent.infoBackup t (pathWithSuffix t ".backup"),
         LogEvent.infoCreated t s] := by
  have ht1 : mkdirParents fs t t = fs t := mkdirParents_self fs t
  have hft : existsFollow (mkdirParents fs t) t = true := by
    simp [existsFollow, ht1, ht]
  have hit : isSymlink (mkdirParents fs t) t = false := by
    simp [isSymlink, ht1, ht]
  have hrt : renameP (mkdirParents fs t) t (pathWithSuffix t ".backup") t = none := by
    simp [renameP, hb.symm]
  unfold createSymlink
  simp only [hsrc, if_true, hft, hit, Bool.false_eq_true, if_false, hrt, Option.isSome_none,
    List.cons_append, List.nil_append]
  refine ⟨?_, ?_, ?_⟩
  · simp [setP, renameP, hb, ht1, ht]
  · simp [setP]
  · trivial

/-- Folding the apply loop over a state every selected entry already links
correctly leaves the state fixed. -/
theorem applyEntries_id (m : Mapping) (names : List String) (fs : Fs)
    (h : ∀ n ∈ names, ∀ e : Path × Path, lookupEntry m n = some e →
      existsFollow fs e.1 = true ∧ fs e.2 = some (Node.symlink e.1) ∧
      ∀ p ∈ properPrefixes e.2, (fs p).isSome = true) :
    (applyEntries m names fs).1 = fs := by
  induction names with
  | nil => rfl
  | cons n ns ih =>
    have hrest : ∀ n2 ∈ ns, ∀ e : Path × Path, lookupEntry m n2 = some e →
        existsFollow fs e.1 = true ∧ fs e.2 = some (Node.symlink e.1) ∧
        ∀ p ∈ properPrefixes e.2, (fs p).isSome = true :=
      fun n2 h2 => h n2 (by simp [h2])
    cases hn : lookupEntry m n with
    | none => simp only [applyEntries, hn]; exact ih hrest
    | some e =>
      obtain ⟨hs, ht, hp⟩ := h n (by simp) e hn
      have hfix := createSymlink_relink fs e.1 e.2 hs ht hp
      simp only [applyEntries, hn, hfix]
      exact ih hrest

/-! ### Claims -/

def emptyFs : Fs := fun _ => none

/-- Claim C1: a selection containing two or more names whose mapping entries
resolve to the same target path makes the duplicate-target check raise the
configuration error before any filesystem mutation: the run ends with exit
code 1, the filesystem unchanged and no entry applied. -/
theorem c1_collision_aborts_before_mutation (m : Mapping) (allFlag : Bool)
    (limit : Option (List String)) (exclude : List String) (fs : Fs)
    (n1 n2 : String) (t : Path)
    (h1 : n1 ∈ selectionOf m allFlag limit exclude)
    (h2 : n2 ∈ selectionOf m allFlag limit exclude)
    (hne : n1 ≠ n2)
    (ht1 : targetOf m n1 = some t) (ht2 : targetOf m n2 = some t) :
    mainRun m allFlag limit exclude fs = (fs, [], 1) := by
  by_cases ha : allFlag
  · have hsel : selectionOf m allFlag limit exclude = allSelection m exclude := by
      simp [selectionOf, ha]
    rw [hsel] at h1 h2
    obtain ⟨e, he⟩ :=
      checkDup_error_of_collision m (allSelection m exclude) n1 n2 t h1 h2 hne ht1 ht2
    have herr : symlinkAll m exclude fs = Except.error e :=
      processSelection_error m (allSelection m exclude) fs e he
    simp [mainRun, ha, symlinkAll] at herr ⊢
    simp [herr]
  · cases hl : limit with
    | none => simp [mainRun, ha, hl]
    | some ds =>
      have hsel : selectionOf m allFlag limit exclude = specificSelection m ds exclude := by
        simp [selectionOf, ha, hl]
      rw [hsel] at h1 h2
      obtain ⟨e, he⟩ :=
        checkDup_error_of_collision m (specificSelection m ds exclude) n1 n2 t h1 h2 hne ht1 ht2
      have herr : symlinkSpecific m ds exclude fs = Except.error e :=
        processSelection_error m (specificSelection m ds exclude) fs e he
      simp [mainRun, ha, symlinkSpecific] at herr ⊢
      simp [herr]

theorem c1_witness :
    mainRun (defaultMapping ["d"] ["h"] ["c"]) true none [] emptyFs = (emptyFs, [], 1) :=
  c1_collision_aborts_before_mutation (defaultMapping ["d"] ["h"] ["c"]) true none [] emptyFs
    "nvim-plugins" "nvim-no-plugins" ["c", "nvim"]
    (by simp [selectionOf, allSelection, defaultMapping, List.mem_filter])
    (by simp [selectionOf, allSelection, defaultMapping, List.mem_filter])
    (by decide) (by decide) (by decide)

/-- Claim C5: in the default mapping, "nvim-plugins" and "nvim-no-plugins" both
resolve to `config_dir/nvim`; hence `symlink_all` fails collision
validation (filesystem unchanged, exit 1) whenever the exclusion set
retains both, and so does `symlink_specific` on any request list keeping
both. -/
theorem c5_nvim_entries_collide (d h c : Path) (fs : Fs) (exclude ds : List String)
    (hx1 : "nvim-plugins" ∉ exclude) (hx2 : "nvim-no-plugins" ∉ exclude) :
    targetOf (defaultMapping d h c) "nvim-plugins" = some (c ++ ["nvim"]) ∧
    targetOf (defaultMapping d h c) "nvim-no-plugins" = some (c ++ ["nvim"]) ∧
    mainRun (defaultMapping d h c) true none exclude fs = (fs, [], 1) ∧
    ("nvim-plugins" ∈ ds → "nvim-no-plugins" ∈ ds →
      mainRun (defaultMapping d h c) false (some ds) exclude fs = (fs, [], 1)) := by
  have ht1 : targetOf (defaultMapping d h c) "nvim-plugins" = some (c ++ ["nvim"]) := by
    simp [targetOf, lookupEntry, defaultMapping]
  have ht2 : targetOf (defaultMapping d h c) "nvim-no-plugins" = some (c ++ ["nvim"]) := by
    simp [targetOf, lookupEntry, defaultMapping]
  refine ⟨ht1, ht2, ?_, ?_⟩
  · obtain ⟨e, he⟩ :=
      checkDup_error_of_collision (defaultMapping d h c)
        (allSelection (defaultMapping d h c) exclude)
        "nvim-plugins" "nvim-no-plugins" (c ++ ["nvim"])
        (by simp [allSelection, defaultMapping, List.mem_filter, hx1])
        (by simp [allSelection, defaultMapping, List.mem_filter, hx2])
        (by decide) ht1 ht2
    have herr := processSelection_error (defaultMapping d h c)
      (allSelection (defaultMapping d h c) exclude) fs e he
    simp only [mainRun, if_true, symlinkAll, herr]
  · intro hd1 hd2
    obtain ⟨e, he⟩ :=
      checkDup_error_of_collision (defaultMapping d h c)
        (specificSelection (defaultMapping d h c) ds exclude)
        "nvim-plugins" "nvim-no-plugins" (c ++ ["nvim"])
        (by simp [specificSelection, List.mem_filter, hx1, hd1, lookupEntry, defaultMapping])
        (by simp [specificSelection, List.mem_filter, hx2, hd2, lookupEntry, defaultMapping])
        (by decide) ht1 ht2
    have herr := processSelection_error (defaultMapping d h c)
      (specificSelection (defaultMapping d h c) ds exclude) fs e he
    simp only [mainRun, Bool.false_eq_true, if_false, symlinkSpecific, herr]

theorem c5_witness :
    targetOf (defaultMapping ["d"] ["h"] ["c"]) "nvim-plugins" = some (["c"] ++ ["nvim"]) ∧
    targetOf (defaultMapping ["d"] ["h"] ["c"]) "nvim-no-plugins" = some (["c"] ++ ["nvim"]) ∧
    mainRun (defaultMapping ["d"] ["h"] ["c"]) true none ["git"] emptyFs = (emptyFs, [], 1) ∧
    ("nvim-plugins" ∈ ["nvim-plugins", "nvim-no-plugins"] →
      "nvim-no-plugins" ∈ ["nvim-plugins", "nvim-no-plugins"] →
      mainRun (defaultMapping ["d"] ["h"] ["c"]) false
        (some ["nvim-plugins", "nvim-no-plugins"]) ["git"] emptyFs = (emptyFs, [], 1)) :=
  c5_nvim_entries_collide ["d"] ["h"] ["c"] emptyFs ["git"]
    ["nvim-plugins", "nvim-no-plugins"] (by decide) (by decide)

/-- A filesystem for the vscode-style scenario: the source settings file
exists and the target `home/settings.json` is a plain file "old". -/
def vscodeFs : Fs := fun p =>
  if p = ["dots", "vscode", "settings.json"] then some (Node.file "newconf")
  else if p = ["dots", "vscode"] then some Node.dir
  else if p = ["dots"] then some Node.dir
  else if p = ["home"] then some Node.dir
  else if p = ["home", "settings.json"] then some (Node.file "old")
  else none

/-- Claim C2 counterexample: for the target `home/settings.json` (a regular file
with contents "old") the backup does NOT land at the path obtained by
appending ".backup" to the full target path — nothing is ever written to
`home/settings.json.backup`; the file is moved to `home/settings.backup`
because `Path.with_suffix` replaces the final extension. -/
theorem c2_counterexample :
    (createSymlink vscodeFs ["dots", "vscode", "settings.json"] ["home", "settings.json"]).1
        ["home", "settings.json.backup"] = none ∧
    (createSymlink vscodeFs ["dots", "vscode", "settings.json"] ["home", "settings.json"]).1
        ["home", "settings.backup"] = some (Node.file "old") ∧
    (createSymlink vscodeFs ["dots", "vscode", "settings.json"] ["home", "settings.json"]).1
        ["home", "settings.json"]
      = some (Node.symlink ["dots", "vscode", "settings.json"]) ∧
    pathWithSuffix ["home", "settings.json"] ".backup" = ["home", "settings.backup"] :=
  ⟨rfl, rfl, rfl, rfl⟩

/-- Claim C2 (amended): an existing regular-file target is renamed to
`target.with_suffix(".backup")` — the final extension of the target's last
component is replaced by ".backup", or ".backup" is appended when there is
none — the backup keeps the pre-existing contents, and a symlink to the
source is then created at the target (provided the backup path differs
from the target, i.e. the target's name does not already end in
".backup"). -/
theorem c2_backup_uses_with_suffix (fs : Fs) (s t : Path) (contents : String)
    (hsrc : existsFollow fs s = true) (ht : fs t = some (Node.file contents))
    (hb : pathWithSuffix t ".backup" ≠ t) :
    (createSymlink fs s t).1 (pathWithSuffix t ".backup") = some (Node.file contents) ∧
    (createSymlink fs s t).1 t = some (Node.symlink s) ∧
    (createSymlink fs s t).2 =
      [LogEvent.infoBackup t (pathWithSuffix t ".backup"), LogEvent.infoCreated t s] :=
  createSymlink_backup fs s t contents hsrc ht hb

theorem c2_witness :
    (createSymlink vscodeFs ["dots", "vscode", "settings.json"] ["home", "settings.json"]).1
        (pathWithSuffix ["home", "settings.json"] ".backup") = some (Node.file "old") ∧
    (createSymlink vscodeFs ["dots", "vscode", "settings.json"] ["home", "settings.json"]).1
        ["home", "settings.json"]
      = some (Node.symlink ["dots", "vscode", "settings.json"]) ∧
    (createSymlink vscodeFs ["dots", "vscode", "settings.json"] ["home", "settings.json"]).2
      = [LogEvent.infoBackup ["home", "settings.json"]
           (pathWithSuffix ["home", "settings.json"] ".backup"),
         LogEvent.infoCreated ["home", "settings.json"] ["dots", "vscode", "settings.json"]] :=
  c2_backup_uses_with_suffix vscodeFs ["dots", "vscode", "settings.json"]
    ["home", "settings.json"] "old" (by decide) (by decide) (by decide)

/-- A filesystem where the tmux and git sources of the default mapping
exist and both targets are absent. -/
def tmuxGitFs : Fs := fun p =>
  if p = ["dots", "tmux", "tmux.conf"] then some (Node.file "tconf")
  else if p = ["dots", "git", "config"] then some (Node.file "gconf")
  else none

/-- Claim C3 counterexample: `symlink_specific(["tmux", "git"])` processes
"tmux" first (its created-symlink log event comes first) although "git"
precedes "tmux" in the mapping table — the inclusion-list branch follows
request order, not mapping-table order. -/
theorem c3_counterexample :
    Except.map Prod.snd
        (symlinkSpecific (defaultMapping ["dots"] ["home"] ["cfg"]) ["tmux", "git"] [] tmuxGitFs)
      = Except.ok
          [LogEvent.infoCreated ["home", "tmux", "tmux.conf"] ["dots", "tmux", "tmux.conf"],
           LogEvent.infoCreated ["home", ".git", "config"] ["dots", "git", "config"]] ∧
    ((defaultMapping ["dots"] ["home"] ["cfg"]).map Prod.fst).indexOf "git" <
      ((defaultMapping ["dots"] ["home"] ["cfg"]).map Prod.fst).indexOf "tmux" :=
  ⟨rfl, by decide⟩

/-- Claim C3 (amended): entries are processed strictly sequentially, one at a
time, with the filesystem threaded left to right; `symlink_all` iterates
in mapping-table order (keys minus exclusions), while `symlink_specific`
iterates in the order of the inclusion list (filtered to known,
non-excluded names), which need not be mapping-table order. -/
theorem c3_sequential_in_selection_order (m : Mapping) (exclude ds : List String) (fs : Fs)
    (h1 : checkDuplicateTargets m (allSelection m exclude) = Except.ok ())
    (h2 : checkDuplicateTargets m (specificSelection m ds exclude) = Except.ok ()) :
    symlinkAll m exclude fs = Except.ok (applyEntries m (allSelection m exclude) fs) ∧
    symlinkSpecific m ds exclude fs
      = Except.ok (applyEntries m (specificSelection m ds exclude) fs) ∧
    allSelection m exclude = (m.map (fun e => e.1)).filter (fun n => !(exclude.contains n)) ∧
    specificSelection m ds exclude
      = ds.filter (fun n => (lookupEntry m n).isSome && !(exclude.contains n)) ∧
    (∀ (n : String) (ns : List String) (g : Fs),
      applyEntries m (n :: ns) g =
        match lookupEntry m n with
        | some e =>
          ((applyEntries m ns (createSymlink g e.1 e.2).1).1,
           (createSymlink g e.1 e.2).2 ++ (applyEntries m ns (createSymlink g e.1 e.2).1).2)
        | none => applyEntries m ns g) := by
  refine ⟨?_, ?_, rfl, rfl, ?_⟩
  · simp [symlinkAll, processSelection, h1]
  · simp [symlinkSpecific, processSelection, h2]
  · intro n ns g
    cases hn : lookupEntry m n <;> simp [applyEntries, hn]

theorem c3_witness :
    symlinkAll (defaultMapping ["dots"] ["home"] ["cfg"]) ["nvim-no-plugins"] tmuxGitFs
      = Except.ok
          (applyEntries (defaultMapping ["dots"] ["home"] ["cfg"])
            (allSelection (defaultMapping ["dots"] ["home"] ["cfg"]) ["nvim-no-plugins"])
            tmuxGitFs) ∧
    symlinkSpecific (defaultMapping ["dots"] ["home"] ["cfg"]) ["tmux", "git"]
        ["nvim-no-plugins"] tmuxGitFs
      = Except.ok
          (applyEntries (defaultMapping ["dots"] ["home"] ["cfg"])
            (specificSelection (defaultMapping ["dots"] ["home"] ["cfg"]) ["tmux", "git"]
              ["nvim-no-plugins"])
            tmuxGitFs) ∧
    allSelection (defaultMapping ["dots"] ["home"] ["cfg"]) ["nvim-no-plugins"]
      = ((defaultMapping ["dots"] ["home"] ["cfg"]).map (fun e => e.1)).filter
          (fun n => !((["nvim-no-plugins"] : List String).contains n)) ∧
    specificSelection (defaultMapping ["dots"] ["home"] ["cfg"]) ["tmux", "git"]
        ["nvim-no-plugins"]
      = (["tmux", "git"] : List String).filter
          (fun n => (lookupEntry (defaultMapping ["dots"] ["home"] ["cfg"]) n).isSome &&
            !((["nvim-no-plugins"] : List String).contains n)) ∧
    (∀ (n : String) (ns : List String) (g : Fs),
      applyEntries (defaultMapping ["dots"] ["home"] ["cfg"]) (n :: ns) g =
        match lookupEntry (defaultMapping ["dots"] ["home"] ["cfg"]) n with
        | some e =>
          ((applyEntries (defaultMapping ["dots"] ["home"] ["cfg"]) ns
              (createSymlink g e.1 e.2).1).1,
           (createSymlink g e.1 e.2).2 ++
             (applyEntries (defaultMapping ["dots"] ["home"] ["cfg"]) ns
               (createSymlink g e.1 e.2).1).2)
        | none => applyEntries (defaultMapping ["dots"] ["home"] ["cfg"]) ns g) :=
  c3_sequential_in_selection_order (defaultMapping ["dots"] ["home"] ["cfg"])
    ["nvim-no-plugins"] ["tmux", "git"] tmuxGitFs (by rfl) (by rfl)

/-- Claim C4: apply is idempotent — on a state where every selected
entry's source exists and every target is already a symlink to its source
(with its parent directories in place, as after a first run), each entry's
processing unlinks and recreates the identical symlink, and the whole run
leaves the filesystem unchanged; when validation passes, the second
`apply` succeeds returning the same filesystem. -/
theorem c4_apply_idempotent (m : Mapping) (names : List String) (fs : Fs)
    (h : ∀ n ∈ names, ∀ e : Path × Path, lookupEntry m n = some e →
      existsFollow fs e.1 = true ∧ fs e.2 = some (Node.symlink e.1) ∧
      ∀ p ∈ properPrefixes e.2, (fs p).isSome = true) :
    (applyEntries m names fs).1 = fs ∧
    (∀ n ∈ names, ∀ e : Path × Path, lookupEntry m n = some e →
      createSymlink fs e.1 e.2 = (fs, [LogEvent.infoCreated e.2 e.1])) ∧
    (checkDuplicateTargets m names = Except.ok () →
      ∃ log, processSelection m names fs = Except.ok (fs, log)) := by
  have hid := applyEntries_id m names fs h
  refine ⟨hid, ?_, ?_⟩
  · intro n hn e he
    obtain ⟨hs, ht, hp⟩ := h n hn e he
    exact createSymlink_relink fs e.1 e.2 hs ht hp
  · intro hv
    refine ⟨(applyEntries m names fs).2, ?_⟩
    simp only [processSelection, hv]
    exact congrArg Except.ok (Prod.ext_iff.mpr ⟨hid, rfl⟩)

def singleMapping : Mapping := [("a", ["src", "a"], ["tgt", "a"])]

/-- State after a first run of `singleMapping`: source file present,
target already a symlink to it, target parent directory present. -/
def linkedFs : Fs := fun p =>
  if p = ["src", "a"] then some (Node.file "data")
  else if p = ["tgt"] then some Node.dir
  else if p = ["tgt", "a"] then some (Node.symlink ["src", "a"])
  else none

theorem c4_witness :
    (applyEntries singleMapping ["a"] linkedFs).1 = linkedFs ∧
    (∀ n ∈ ["a"], ∀ e : Path × Path, lookupEntry singleMapping n = some e →
      createSymlink linkedFs e.1 e.2 = (linkedFs, [LogEvent.infoCreated e.2 e.1])) ∧
    (checkDuplicateTargets singleMapping ["a"] = Except.ok () →
      ∃ log, processSelection singleMapping ["a"] linkedFs = Except.ok (linkedFs, log)) :=
  c4_apply_idempotent singleMapping ["a"] linkedFs (by
    intro n hn e he
    simp only [List.mem_singleton] at hn
    subst hn
    simp only [singleMapping, lookupEntry, if_pos rfl] at he
    cases he
    refine ⟨by decide, by decide, by decide⟩)

/-- Claim C6: `symlink_specific` silently drops names absent from the
mapping table: removing an unknown name from the request list changes
neither the selection nor the outcome of the run (same filesystem, same
log, same error behavior); only known, non-excluded names are kept. -/
theorem c6_unknown_names_silently_dropped (m : Mapping) (ds1 ds2 exclude : List String)
    (fs : Fs) (n : String) (h : lookupEntry m n = none) :
    symlinkSpecific m (ds1 ++ n :: ds2) exclude fs = symlinkSpecific m (ds1 ++ ds2) exclude fs ∧
    specificSelection m (ds1 ++ n :: ds2) exclude = specificSelection m (ds1 ++ ds2) exclude := by
  have hsel : specificSelection m (ds1 ++ n :: ds2) exclude
      = specificSelection m (ds1 ++ ds2) exclude := by
    simp [specificSelection, List.filter_append, List.filter_cons, h]
  exact ⟨by simp [symlinkSpecific, hsel], hsel⟩

theorem c6_witness :
    symlinkSpecific singleMapping (["a"] ++ "zzz" :: []) [] emptyFs
      = symlinkSpecific singleMapping (["a"] ++ []) [] emptyFs ∧
    specificSelection singleMapping (["a"] ++ "zzz" :: []) []
      = specificSelection singleMapping (["a"] ++ []) [] :=
  c6_unknown_names_silently_dropped singleMapping ["a"] [] [] emptyFs "zzz" (by decide)

/-- Claim C7: an entry whose source does not exist is skipped with a
warning and no filesystem change at all (no parent directory, no backup,
no symlink), and the loop continues with the remaining entries. -/
theorem c7_missing_source_skips_entry (m : Mapping) (fs : Fs) (s t : Path) (n : String)
    (ns : List String) (hsrc : existsFollow fs s = false)
    (hn : lookupEntry m n = some (s, t)) :
    createSymlink fs s t = (fs, [LogEvent.warnMissingSource s]) ∧
    applyEntries m (n :: ns) fs
      = ((applyEntries m ns fs).1, LogEvent.warnMissingSource s :: (applyEntries m ns fs).2) := by
  have h1 := createSymlink_missing_source fs s t hsrc
  refine ⟨h1, ?_⟩
  simp [applyEntries, hn, h1]

theorem c7_witness :
    createSymlink emptyFs ["src", "a"] ["tgt", "a"]
      = (emptyFs, [LogEvent.warnMissingSource ["src", "a"]]) ∧
    applyEntries singleMapping ["a"] emptyFs
      = ((applyEntries singleMapping [] emptyFs).1,
         LogEvent.warnMissingSource ["src", "a"] :: (applyEntries singleMapping [] emptyFs).2) :=
  c7_missing_source_skips_entry singleMapping emptyFs ["src", "a"] ["tgt", "a"] "a" []
    (by decide) (by decide)

/-- Claim C8: the exit code is 0 exactly when a selection branch was taken
and collision validation succeeded — per-entry warnings and caught
symlink-creation failures never change it — and 1 exactly on
collision-validation failure or when neither `--all` nor `--limit` is
given. -/
theorem c8_exit_codes (m : Mapping) (allFlag : Bool) (limit : Option (List String))
    (exclude : List String) (fs : Fs) :
    (mainRun m allFlag limit exclude fs).2.2 = 0 ↔
      ((allFlag = true ∧ checkDuplicateTargets m (allSelection m exclude) = Except.ok ()) ∨
       (allFlag = false ∧ ∃ ds, limit = some ds ∧
         checkDuplicateTargets m (specificSelection m ds exclude) = Except.ok ())) := by
  by_cases ha : allFlag
  · cases hc : checkDuplicateTargets m (allSelection m exclude) with
    | ok u => cases u; simp [mainRun, ha, symlinkAll, processSelection, hc]
    | error e => simp [mainRun, ha, symlinkAll, processSelection, hc]
  · cases hl : limit with
    | none => simp [mainRun, ha, hl]
    | some ds =>
      cases hc : checkDuplicateTargets m (specificSelection m ds exclude) with
      | ok u => cases u; simp [mainRun, ha, hl, symlinkSpecific, processSelection, hc]
      | error e => simp [mainRun, ha, hl, symlinkSpecific, processSelection, hc]

/-- Claim C9: the environment override wins whenever it is set, on every
platform (including Darwin and Linux); otherwise the root is
`~/Library/Application Support` on Darwin (macOS), `~/.config` on Linux,
and `~/.config` with a logged warning on any other platform. -/
theorem c9_config_root_resolution (home p : Path) (sys : String)
    (h1 : lowerStr sys ≠ "darwin") (h2 : lowerStr sys ≠ "linux") :
    (∀ s : String, resolveConfigDir (some p) s home = p) ∧
    resolveConfigDir none "Darwin" home = home ++ ["Library", "Application Support"] ∧
    resolveConfigDir none "Linux" home = home ++ [".config"] ∧
    (getDefaultConfigDir "Darwin" home).2 = false ∧
    (getDefaultConfigDir "Linux" home).2 = false ∧
    resolveConfigDir none sys home = home ++ [".config"] ∧
    (getDefaultConfigDir sys home).2 = true := by
  refine ⟨fun s => rfl, rfl, rfl, rfl, rfl, ?_, ?_⟩
  · simp [resolveConfigDir, getDefaultConfigDir, h1, h2]
  · simp [getDefaultConfigDir, h1, h2]

theorem c9_witness :
    (∀ s : String, resolveConfigDir (some ["x"]) s ["h"] = ["x"]) ∧
    resolveConfigDir none "Darwin" ["h"] = ["h"] ++ ["Library", "Application Support"] ∧
    resolveConfigDir none "Linux" ["h"] = ["h"] ++ [".config"] ∧
    (getDefaultConfigDir "Darwin" ["h"]).2 = false ∧
    (getDefaultConfigDir "Linux" ["h"]).2 = false ∧
    resolveConfigDir none "Windows" ["h"] = ["h"] ++ [".config"] ∧
    (getDefaultConfigDir "Windows" ["h"]).2 = true :=
  c9_config_root_resolution ["h"] ["x"] "Windows" (by decide) (by decide)

/-- Claim C10: a dangling target symlink (`exists()` is false but the path
is occupied) is neither unlinked nor backed up; the symlink creation then
fails on the occupied path, the failure is caught and logged as an error,
the filesystem is unchanged, and the loop continues with the remaining
entries. -/
theorem c10_dangling_target_symlink (m : Mapping) (fs : Fs) (s t q : Path) (n : String)
    (ns : List String)
    (hsrc : existsFollow fs s = true) (ht : fs t = some (Node.symlink q)) (hq : fs q = none)
    (hp : ∀ p ∈ properPrefixes t, (fs p).isSome = true)
    (hn : lookupEntry m n = some (s, t)) :
    createSymlink fs s t = (fs, [LogEvent.errorSymlink t]) ∧
    applyEntries m (n :: ns) fs
      = ((applyEntries m ns fs).1, LogEvent.errorSymlink t :: (applyEntries m ns fs).2) := by
  have h1 := createSymlink_dangling fs s t q hsrc ht hq hp
  refine ⟨h1, ?_⟩
  simp [applyEntries, hn, h1]

/-- Source file present, target a dangling symlink to a missing referent,
target parent directory present. -/
def brokenFs : Fs := fun p =>
  if p = ["src", "a"] then some (Node.file "data")
  else if p = ["tgt"] then some Node.dir
  else if p = ["tgt", "a"] then some (Node.symlink ["gone"])
  else none

theorem c10_witness :
    createSymlink brokenFs ["src", "a"] ["tgt", "a"]
      = (brokenFs, [LogEvent.errorSymlink ["tgt", "a"]]) ∧
    applyEntries singleMapping ["a"] brokenFs
      = ((applyEntries singleMapping [] brokenFs).1,
         LogEvent.errorSymlink ["tgt", "a"] :: (applyEntries singleMapping [] brokenFs).2) :=
  c10_dangling_target_symlink singleMapping brokenFs ["src", "a"] ["tgt", "a"] ["gone"] "a" []
    (by decide) (by decide) (by decide) (by decide) (by decide)

end SymlinkManager
